import Mathlib

/-!
Verification development for the `fallback` package: a Chain of
Responsibility of fallback HTTP requests.

The embedding follows `src/fallback.go` (final revision: the doc-commented
`Connection` with `Name`/`Host`/`Output`/`CustomError`/`Fallback` whose
`ExecuteHTTPRequest` propagates the fallback's result verbatim) and
`src/connectionbuilder.go` together with the doc-commented builder revision
(`src/unnamed/part_000`).

The external collaborators (`net/http`'s `NewRequest` and `Client.Do`,
`encoding/json`'s decoder) are modelled as explicit parameters: a
`Transport` supplies request construction and the request/response
exchange, and a `Decoder` decides whether a payload decodes into the
value currently stored at a target.  The Go `interface{}` targets
`Connection.Output` and `Connection.CustomError` are pointers into
caller-owned storage; they are modelled as addresses (`Nat`) into an
explicit heap `Nat → V`, and decoding writes through the address.
-/

set_option autoImplicit false

namespace Fallback

/-- A Go `error` value, identified by its message (`errors.New`). -/
structure GoError where
  message : String
  deriving Repr, DecidableEq

/-- A raw HTTP response body, as consumed by `json.NewDecoder(resp.Body)`. -/
abbrev Payload := String

/-- The part of `http.Response` that `ExecuteHTTPRequest` inspects:
the status code and the body handed to the JSON decoder. -/
structure HTTPResponse where
  statusCode : Int
  body : Payload
  deriving Repr, DecidableEq

/-- The part of `http.Request` that `CreateHTTPRequest` produces: method,
full URL, optional POST body and the header pairs added by the loop
`for key := range headers { request.Header.Add(key, headers[key]) }`. -/
structure HTTPRequest where
  method : String
  url : String
  body : Option (List Nat)
  headers : List (String × String)
  deriving Repr, DecidableEq

/-- `request.Header.Add` called once for every supplied header pair. -/
def addHeaderList (request : HTTPRequest) (headers : List (String × String)) :
    HTTPRequest :=
  { request with headers := request.headers ++ headers }

/-- The external collaborators from `net/http`: `http.NewRequest`
(construction, may fail on an invalid method/URL) and `http.Client.Do`
(the exchange, may fail with a transport error). -/
structure Transport where
  newRequest : String → String → Option (List Nat) → Except GoError HTTPRequest
  doRequest : HTTPRequest → Except GoError HTTPResponse

/-- The external JSON codec: `dec.Decode(target)` succeeds or fails
depending on the payload and on the value currently stored at the target
(which carries the target's shape); on success it yields the new value
written through the target. -/
structure Decoder (V : Type) where
  decode : Payload → V → Option V

/-- `Connection` from `src/fallback.go`: one Attempt Node of the chain.
`Output` and `CustomError` are `interface{}` references, modelled as heap
addresses; `Fallback` is the next node of the chain (`nil` when terminal). -/
inductive Connection : Type where
  | mk (Name Host : String) (Output CustomError : Nat)
      (Fallback : Option Connection)
  deriving Repr

def Connection.Name : Connection → String
  | .mk n _ _ _ _ => n

def Connection.Host : Connection → String
  | .mk _ h _ _ _ => h

def Connection.Output : Connection → Nat
  | .mk _ _ o _ _ => o

def Connection.CustomError : Connection → Nat
  | .mk _ _ _ c _ => c

def Connection.Fallback : Connection → Option Connection
  | .mk _ _ _ _ f => f

/-- `NewConnection` from `src/fallback.go`. -/
def NewConnection (name host : String) (output customError : Nat)
    (fallback : Option Connection) : Connection :=
  .mk name host output customError fallback

/-- `Connection.CreateHTTPRequest` from `src/fallback.go`: calls
`http.NewRequest(method, connection.Host+"/"+path, body)` (the `body == nil`
branch only chooses between a nil reader and a buffer, which the `Option`
argument already captures), returns its error unchanged on failure, and
otherwise adds every supplied header to the request. -/
def Connection.CreateHTTPRequest (T : Transport) (connection : Connection)
    (method path : String) (body : Option (List Nat))
    (headers : List (String × String)) : Except GoError HTTPRequest :=
  match T.newRequest method (connection.Host ++ "/" ++ path) body with
  | .error err => .error err
  | .ok request => .ok (addHeaderList request headers)

/-- The message of the error built by
`errors.New("Unable to parse custom error.")` on either decode failure. -/
def decodeErrMsg : String := "Unable to parse custom error."

/-- Writing a decoded value through a target address: only that address
changes. -/
def updateHeap {V : Type} (heap : Nat → V) (a : Nat) (v : V) : Nat → V :=
  fun x => if x = a then v else heap x

/-- The observable outcome of `ExecuteHTTPRequest`: the returned
`(int, error)` pair, the heap after the call, and two ghost traces used
only to state which nodes ran (`visited`: nodes whose
`ExecuteHTTPRequest` was entered, in order; `transported`: nodes whose
`client.Do` call happened, in order). -/
structure ExecResult (V : Type) where
  statusCode : Int
  error : Option GoError
  heap : Nat → V
  visited : List String
  transported : List String

/-- `Connection.ExecuteHTTPRequest` from `src/fallback.go` (final
revision, verbatim fallback propagation).  The Go control flow is kept
branch for branch:
construction failure delegates to the fallback or returns `(400, err)`;
transport failure delegates or returns `(503, err)`;
a 404 delegates or returns `(404, nil)` without touching the body;
any other status outside `[200,299]` delegates or decodes the body into
`CustomError`, returning the status with `nil` or the decode error;
a 2xx decodes the body into `Output`, returning the status with `nil`
or the decode error.  `visited`/`transported` are ghost instrumentation
recording which nodes ran; the Go function returns only the pair.
The Go body tests `connection.Fallback != nil` inside each failure
branch; here that test is specialized on the constructor's `Fallback`
field, keeping every branch's content identical to the source. -/
def ExecuteHTTPRequest {V : Type} (T : Transport) (D : Decoder V)
    (method path : String) (body : Option (List Nat))
    (headers : List (String × String)) :
    Connection → (Nat → V) → ExecResult V
  | .mk nm host out ce none, heap =>
    match Connection.CreateHTTPRequest T (.mk nm host out ce none)
        method path body headers with
    | .error err => ⟨400, some err, heap, [nm], []⟩
    | .ok request =>
      match T.doRequest request with
      | .error err => ⟨503, some err, heap, [nm], [nm]⟩
      | .ok resp =>
        if resp.statusCode = 404 then ⟨404, none, heap, [nm], [nm]⟩
        else if resp.statusCode < 200 ∨ 299 < resp.statusCode then
          match D.decode resp.body (heap ce) with
          | none => ⟨resp.statusCode, some ⟨decodeErrMsg⟩, heap, [nm], [nm]⟩
          | some v => ⟨resp.statusCode, none, updateHeap heap ce v, [nm], [nm]⟩
        else
          match D.decode resp.body (heap out) with
          | none => ⟨resp.statusCode, some ⟨decodeErrMsg⟩, heap, [nm], [nm]⟩
          | some v => ⟨resp.statusCode, none, updateHeap heap out v, [nm], [nm]⟩
  | .mk nm host out ce (some fallback), heap =>
    match Connection.CreateHTTPRequest T (.mk nm host out ce (some fallback))
        method path body headers with
    | .error _ =>
      let r := ExecuteHTTPRequest T D method path body headers fallback heap
      { r with visited := nm :: r.visited }
    | .ok request =>
      match T.doRequest request with
      | .error _ =>
        let r := ExecuteHTTPRequest T D method path body headers fallback heap
        { r with visited := nm :: r.visited,
                 transported := nm :: r.transported }
      | .ok resp =>
        if resp.statusCode = 404 then
          let r := ExecuteHTTPRequest T D method path body headers fallback heap
          { r with visited := nm :: r.visited,
                   transported := nm :: r.transported }
        else if resp.statusCode < 200 ∨ 299 < resp.statusCode then
          let r := ExecuteHTTPRequest T D method path body headers fallback heap
          { r with visited := nm :: r.visited,
                   transported := nm :: r.transported }
        else
          match D.decode resp.body (heap out) with
          | none => ⟨resp.statusCode, some ⟨decodeErrMsg⟩, heap, [nm], [nm]⟩
          | some v => ⟨resp.statusCode, none, updateHeap heap out v, [nm], [nm]⟩

/-- Number of nodes in the chain hanging off a head node. -/
def chainLength : Connection → Nat
  | .mk _ _ _ _ none => 1
  | .mk _ _ _ _ (some fb) => 1 + chainLength fb

/-- The HTTP exchange a node with the given host performs, as seen from
outside: `none` when construction or transport fails, otherwise the
response.  Mirrors the construct-then-send half of `ExecuteHTTPRequest`
(which only depends on the node through its `Host`). -/
def attemptResponse (T : Transport) (method path : String)
    (body : Option (List Nat)) (headers : List (String × String))
    (host : String) : Option HTTPResponse :=
  match T.newRequest method (host ++ "/" ++ path) body with
  | .error _ => none
  | .ok request =>
    match T.doRequest (addHeaderList request headers) with
    | .error _ => none
    | .ok resp => some resp

/-- A node fails: construction fails, transport fails, or the status is
outside `[200, 299]` (which includes the special-cased 404). -/
def attemptFails (T : Transport) (method path : String)
    (body : Option (List Nat)) (headers : List (String × String))
    (host : String) : Bool :=
  match attemptResponse T method path body headers host with
  | none => true
  | some resp => decide (resp.statusCode < 200) || decide (299 < resp.statusCode)

/-- A node succeeds: the exchange completes, the status is in
`[200, 299]`, and the payload decodes into the value currently at the
node's `Output` target. -/
def nodeSucceeds {V : Type} (T : Transport) (D : Decoder V)
    (method path : String) (body : Option (List Nat))
    (headers : List (String × String)) (heap : Nat → V)
    (c : Connection) : Bool :=
  match attemptResponse T method path body headers c.Host with
  | none => false
  | some resp =>
    decide (200 ≤ resp.statusCode) && decide (resp.statusCode ≤ 299) &&
      (D.decode resp.body (heap c.Output)).isSome

/-- The configuration of one failing node placed in front of the node
under test (its `Fallback` is supplied by `linkChain`). -/
structure NodeConf where
  Name : String
  Host : String
  Output : Nat
  CustomError : Nat
  deriving Repr, DecidableEq

/-- Build a chain from a list of leading node configurations ending in a
given tail connection: position `k` of the chain is `tail` when the list
has length `k`. -/
def linkChain : List NodeConf → Connection → Connection
  | [], tail => tail
  | c :: rest, tail =>
    .mk c.Name c.Host c.Output c.CustomError (some (linkChain rest tail))

/-- All heap addresses the chain can write through: the `Output` and
`CustomError` targets of every node reachable from the head. -/
def chainTargets : Connection → List Nat
  | .mk _ _ out ce none => [out, ce]
  | .mk _ _ out ce (some fb) => out :: ce :: chainTargets fb

/-- A failing node with a fallback delegates: the returned pair and the
final heap are exactly those of the fallback's execution. -/
theorem execute_delegates {V : Type} (T : Transport) (D : Decoder V)
    (method path : String) (body : Option (List Nat))
    (headers : List (String × String)) (nm host : String) (out ce : Nat)
    (f : Connection) (heap : Nat → V)
    (hfail : attemptFails T method path body headers host = true) :
    (ExecuteHTTPRequest T D method path body headers
        (.mk nm host out ce (some f)) heap).statusCode
      = (ExecuteHTTPRequest T D method path body headers f heap).statusCode ∧
    (ExecuteHTTPRequest T D method path body headers
        (.mk nm host out ce (some f)) heap).error
      = (ExecuteHTTPRequest T D method path body headers f heap).error ∧
    (ExecuteHTTPRequest T D method path body headers
        (.mk nm host out ce (some f)) heap).heap
      = (ExecuteHTTPRequest T D method path body headers f heap).heap := by
  unfold attemptFails attemptResponse at hfail
  simp only [ExecuteHTTPRequest, Connection.CreateHTTPRequest, Connection.Host]
  cases h1 : T.newRequest method (host ++ "/" ++ path) body with
  | error e => simp only [h1]; exact ⟨trivial, trivial, trivial⟩
  | ok request =>
    simp only [h1] at hfail ⊢
    cases h2 : T.doRequest (addHeaderList request headers) with
    | error e => simp only [h2]; exact ⟨trivial, trivial, trivial⟩
    | ok resp =>
      simp only [h2] at hfail ⊢
      simp only [Bool.or_eq_true, decide_eq_true_eq] at hfail
      by_cases h404 : resp.statusCode = 404
      · simp only [if_pos h404]; exact ⟨trivial, trivial, trivial⟩
      · simp only [if_neg h404, if_pos hfail]; exact ⟨trivial, trivial, trivial⟩

/-- A succeeding node returns its own 2xx status with no error and writes
the decoded value through its `Output` target, whether or not it has a
fallback. -/
theorem execute_succeeds {V : Type} (T : Transport) (D : Decoder V)
    (method path : String) (body : Option (List Nat))
    (headers : List (String × String)) (c : Connection) (heap : Nat → V)
    (hs : nodeSucceeds T D method path body headers heap c = true) :
    ∃ resp v,
      attemptResponse T method path body headers c.Host = some resp ∧
      D.decode resp.body (heap c.Output) = some v ∧
      (ExecuteHTTPRequest T D method path body headers c heap).statusCode
        = resp.statusCode ∧
      (ExecuteHTTPRequest T D method path body headers c heap).error = none ∧
      (ExecuteHTTPRequest T D method path body headers c heap).heap
        = updateHeap heap c.Output v := by
  cases c with
  | mk nm host out ce fb =>
    unfold nodeSucceeds attemptResponse at hs
    simp only [Connection.Host, Connection.Output] at hs
    cases h1 : T.newRequest method (host ++ "/" ++ path) body with
    | error e => rw [h1] at hs; simp at hs
    | ok request =>
      simp only [h1] at hs
      cases h2 : T.doRequest (addHeaderList request headers) with
      | error e => rw [h2] at hs; simp at hs
      | ok resp =>
        simp only [h2] at hs
        simp only [Bool.and_eq_true, decide_eq_true_eq,
          Option.isSome_iff_exists] at hs
        obtain ⟨⟨hlo, hhi⟩, v, hv⟩ := hs
        have h404 : ¬ resp.statusCode = 404 := by omega
        have hrange : ¬ (resp.statusCode < 200 ∨ 299 < resp.statusCode) := by
          omega
        refine ⟨resp, v, ?_, ?_, ?_⟩
        · unfold attemptResponse
          simp only [Connection.Host, h1, h2]
        · simpa only [Connection.Output] using hv
        · cases fb with
          | none =>
            simp only [ExecuteHTTPRequest, Connection.CreateHTTPRequest,
              Connection.Host, Connection.Output, h1, h2, if_neg h404,
              if_neg hrange, hv]
            exact ⟨trivial, trivial, trivial⟩
          | some f =>
            simp only [ExecuteHTTPRequest, Connection.CreateHTTPRequest,
              Connection.Host, Connection.Output, h1, h2, if_neg h404,
              if_neg hrange, hv]
            exact ⟨trivial, trivial, trivial⟩

/-- Walking a prefix of failing nodes changes nothing observable: the
returned pair and the final heap are those of the tail's execution. -/
theorem execute_linkChain_fails {V : Type} (T : Transport) (D : Decoder V)
    (method path : String) (body : Option (List Nat))
    (headers : List (String × String)) (pre : List NodeConf)
    (tail : Connection) (heap : Nat → V)
    (hpre : ∀ cf ∈ pre, attemptFails T method path body headers cf.Host = true) :
    (ExecuteHTTPRequest T D method path body headers
        (linkChain pre tail) heap).statusCode
      = (ExecuteHTTPRequest T D method path body headers tail heap).statusCode ∧
    (ExecuteHTTPRequest T D method path body headers
        (linkChain pre tail) heap).error
      = (ExecuteHTTPRequest T D method path body headers tail heap).error ∧
    (ExecuteHTTPRequest T D method path body headers
        (linkChain pre tail) heap).heap
      = (ExecuteHTTPRequest T D method path body headers tail heap).heap := by
  induction pre with
  | nil => exact ⟨rfl, rfl, rfl⟩
  | cons cf rest ih =>
    have hcf := hpre cf (List.mem_cons_self cf rest)
    have hrest := fun c hc => hpre c (List.mem_cons_of_mem cf hc)
    have hd := execute_delegates T D method path body headers cf.Name cf.Host
      cf.Output cf.CustomError (linkChain rest tail) heap hcf
    have hi := ih hrest
    simp only [linkChain]
    exact ⟨hd.1.trans hi.1, hd.2.1.trans hi.2.1, hd.2.2.trans hi.2.2⟩

/-- A node that obtains a 2xx response whose payload does not decode
returns that status paired with the decode error, touches nothing, and
never enters its fallback (its ghost `visited` trace is just itself). -/
theorem execute_decodeFail_2xx {V : Type} (T : Transport) (D : Decoder V)
    (method path : String) (body : Option (List Nat))
    (headers : List (String × String)) (c : Connection) (heap : Nat → V)
    (resp : HTTPResponse)
    (hresp : attemptResponse T method path body headers c.Host = some resp)
    (hlo : 200 ≤ resp.statusCode) (hhi : resp.statusCode ≤ 299)
    (hdec : D.decode resp.body (heap c.Output) = none) :
    ExecuteHTTPRequest T D method path body headers c heap
      = ⟨resp.statusCode, some ⟨decodeErrMsg⟩, heap, [c.Name], [c.Name]⟩ := by
  cases c with
  | mk nm host out ce fb =>
    unfold attemptResponse at hresp
    simp only [Connection.Host, Connection.Output] at hresp hdec
    have h404 : ¬ resp.statusCode = 404 := by omega
    have hrange : ¬ (resp.statusCode < 200 ∨ 299 < resp.statusCode) := by omega
    cases h1 : T.newRequest method (host ++ "/" ++ path) body with
    | error e => rw [h1] at hresp; simp at hresp
    | ok request =>
      simp only [h1] at hresp
      cases h2 : T.doRequest (addHeaderList request headers) with
      | error e => rw [h2] at hresp; simp at hresp
      | ok resp2 =>
        simp only [h2, Option.some.injEq] at hresp
        subst hresp
        cases fb with
        | none =>
          simp only [ExecuteHTTPRequest, Connection.CreateHTTPRequest,
            Connection.Host, Connection.Name, h1, h2, if_neg h404,
            if_neg hrange, hdec]
        | some f =>
          simp only [ExecuteHTTPRequest, Connection.CreateHTTPRequest,
            Connection.Host, Connection.Name, h1, h2, if_neg h404,
            if_neg hrange, hdec]

/-- A terminal node that obtains a non-2xx, non-404 response decodes the
payload into its `CustomError` target: status with no error on decode
success, status with the decode error on decode failure. -/
theorem execute_terminal_non2xx {V : Type} (T : Transport) (D : Decoder V)
    (method path : String) (body : Option (List Nat))
    (headers : List (String × String)) (nm host : String) (out ce : Nat)
    (heap : Nat → V) (resp : HTTPResponse)
    (hresp : attemptResponse T method path body headers host = some resp)
    (hbad : resp.statusCode < 200 ∨ 299 < resp.statusCode)
    (h404 : ¬ resp.statusCode = 404) :
    ExecuteHTTPRequest T D method path body headers
        (.mk nm host out ce none) heap
      = match D.decode resp.body (heap ce) with
        | none => ⟨resp.statusCode, some ⟨decodeErrMsg⟩, heap, [nm], [nm]⟩
        | some v => ⟨resp.statusCode, none, updateHeap heap ce v, [nm], [nm]⟩ := by
  unfold attemptResponse at hresp
  cases h1 : T.newRequest method (host ++ "/" ++ path) body with
  | error e => rw [h1] at hresp; simp at hresp
  | ok request =>
    simp only [h1] at hresp
    cases h2 : T.doRequest (addHeaderList request headers) with
    | error e => rw [h2] at hresp; simp at hresp
    | ok resp2 =>
      simp only [h2, Option.some.injEq] at hresp
      subst hresp
      simp only [ExecuteHTTPRequest, Connection.CreateHTTPRequest,
        Connection.Host, h1, h2, if_neg h404, if_pos hbad]

/-- A terminal node that obtains a 404 response returns `(404, nil)`
without decoding anything: the heap is untouched. -/
theorem execute_terminal_404 {V : Type} (T : Transport) (D : Decoder V)
    (method path : String) (body : Option (List Nat))
    (headers : List (String × String)) (nm host : String) (out ce : Nat)
    (heap : Nat → V) (resp : HTTPResponse)
    (hresp : attemptResponse T method path body headers host = some resp)
    (h404 : resp.statusCode = 404) :
    ExecuteHTTPRequest T D method path body headers
        (.mk nm host out ce none) heap
      = ⟨404, none, heap, [nm], [nm]⟩ := by
  unfold attemptResponse at hresp
  cases h1 : T.newRequest method (host ++ "/" ++ path) body with
  | error e => rw [h1] at hresp; simp at hresp
  | ok request =>
    simp only [h1] at hresp
    cases h2 : T.doRequest (addHeaderList request headers) with
    | error e => rw [h2] at hresp; simp at hresp
    | ok resp2 =>
      simp only [h2, Option.some.injEq] at hresp
      subst hresp
      simp only [ExecuteHTTPRequest, Connection.CreateHTTPRequest,
        Connection.Host, h1, h2, if_pos h404]

/-- A terminal node whose request construction fails returns `(400, err)`
with that construction error; `client.Do` never runs (its ghost
`transported` trace is empty). -/
theorem execute_terminal_construct {V : Type} (T : Transport) (D : Decoder V)
    (method path : String) (body : Option (List Nat))
    (headers : List (String × String)) (nm host : String) (out ce : Nat)
    (heap : Nat → V) (e : GoError)
    (herr : T.newRequest method (host ++ "/" ++ path) body = .error e) :
    ExecuteHTTPRequest T D method path body headers
        (.mk nm host out ce none) heap
      = ⟨400, some e, heap, [nm], []⟩ := by
  simp only [ExecuteHTTPRequest, Connection.CreateHTTPRequest,
    Connection.Host, herr]

/-- A terminal node whose transport call fails returns `(503, err)` with
that transport error. -/
theorem execute_terminal_transport {V : Type} (T : Transport) (D : Decoder V)
    (method path : String) (body : Option (List Nat))
    (headers : List (String × String)) (nm host : String) (out ce : Nat)
    (heap : Nat → V) (request : HTTPRequest) (e : GoError)
    (hok : T.newRequest method (host ++ "/" ++ path) body = .ok request)
    (herr : T.doRequest (addHeaderList request headers) = .error e) :
    ExecuteHTTPRequest T D method path body headers
        (.mk nm host out ce none) heap
      = ⟨503, some e, heap, [nm], [nm]⟩ := by
  simp only [ExecuteHTTPRequest, Connection.CreateHTTPRequest,
    Connection.Host, hok, herr]

/-- Heap frame property: execution can write only through the `Output`
and `CustomError` targets of the chain's nodes; every other address is
untouched. -/
theorem execute_frame {V : Type} (T : Transport) (D : Decoder V)
    (method path : String) (body : Option (List Nat))
    (headers : List (String × String)) :
    ∀ (c : Connection) (heap : Nat → V) (a : Nat),
      a ∉ chainTargets c →
      (ExecuteHTTPRequest T D method path body headers c heap).heap a = heap a
  | .mk nm host out ce none, heap, a, ha => by
    simp only [chainTargets, List.mem_cons, List.not_mem_nil, or_false,
      not_or] at ha
    obtain ⟨hout, hce⟩ := ha
    simp only [ExecuteHTTPRequest, Connection.CreateHTTPRequest,
      Connection.Host]
    repeat' split
    all_goals simp_all [updateHeap]
  | .mk nm host out ce (some f), heap, a, ha => by
    simp only [chainTargets, List.mem_cons, not_or] at ha
    obtain ⟨hout, hce, hf⟩ := ha
    have ih := execute_frame T D method path body headers f heap a hf
    simp only [ExecuteHTTPRequest, Connection.CreateHTTPRequest,
      Connection.Host]
    repeat' split
    all_goals simp_all [updateHeap]

/-- Concrete single-character-address world used by the witnesses: the
heap stores strings, the decoder accepts exactly the payload `GOOD`, and
the transport knows a handful of hosts (`badscheme` breaks construction,
`h200`/`h200bad` answer 200 with a decodable/undecodable payload,
`h404`/`h404bad` answer 404, `h500`/`h500good`/`h500bad` answer 500, and
everything else is unreachable). -/
def testDecoder : Decoder String :=
  ⟨fun p _ => if p = "GOOD" then some "decoded" else none⟩

def testTransport : Transport where
  newRequest method url body :=
    if url = "badscheme/p" then .error ⟨"invalid URL"⟩
    else .ok ⟨method, url, body, []⟩
  doRequest r :=
    if r.url = "h200/p" then .ok ⟨200, "GOOD"⟩
    else if r.url = "h200bad/p" then .ok ⟨200, "BAD"⟩
    else if r.url = "h404/p" then .ok ⟨404, "GOOD"⟩
    else if r.url = "h404bad/p" then .ok ⟨404, "BAD"⟩
    else if r.url = "h500/p" then .ok ⟨500, "BAD"⟩
    else if r.url = "h500good/p" then .ok ⟨500, "GOOD"⟩
    else .error ⟨"unreachable"⟩

def heap0 : Nat → String := fun _ => ""

/-- C1: for every chain of length 1, 2 or 3 and every position `k` in
it, if every node before position `k` fails (at construction, at
transport, or with a non-success status) and the node at position `k`
succeeds, then `ExecuteHTTPRequest` on the head returns the position-`k`
node's success status code with no error and populates that node's
`Output` target with the decoded value. -/
theorem c1_first_success {V : Type} (T : Transport) (D : Decoder V)
    (method path : String) (body : Option (List Nat))
    (headers : List (String × String)) (pre : List NodeConf)
    (ck : Connection) (heap : Nat → V)
    (_hlen : pre.length + chainLength ck ≤ 3)
    (hpre : ∀ cf ∈ pre, attemptFails T method path body headers cf.Host = true)
    (hck : nodeSucceeds T D method path body headers heap ck = true) :
    ∃ resp v,
      attemptResponse T method path body headers ck.Host = some resp ∧
      D.decode resp.body (heap ck.Output) = some v ∧
      (ExecuteHTTPRequest T D method path body headers
          (linkChain pre ck) heap).statusCode = resp.statusCode ∧
      (ExecuteHTTPRequest T D method path body headers
          (linkChain pre ck) heap).error = none ∧
      (ExecuteHTTPRequest T D method path body headers
          (linkChain pre ck) heap).heap = updateHeap heap ck.Output v := by
  obtain ⟨resp, v, hr, hv, hs, he, hh⟩ :=
    execute_succeeds T D method path body headers ck heap hck
  obtain ⟨ea, eb, ec⟩ :=
    execute_linkChain_fails T D method path body headers pre ck heap hpre
  exact ⟨resp, v, hr, hv, ea.trans hs, eb.trans he, ec.trans hh⟩

theorem c1_first_success_witness :
    ((([⟨"n1", "h500", 0, 1⟩] : List NodeConf).length
        + chainLength (.mk "n2" "h200" 2 3 none) ≤ 3) ∧
      (∀ cf ∈ ([⟨"n1", "h500", 0, 1⟩] : List NodeConf),
        attemptFails testTransport "GET" "p" none [] cf.Host = true) ∧
      nodeSucceeds testTransport testDecoder "GET" "p" none [] heap0
        (.mk "n2" "h200" 2 3 none) = true) ∧
    (∃ resp v,
      attemptResponse testTransport "GET" "p" none []
        (Connection.mk "n2" "h200" 2 3 none).Host = some resp ∧
      testDecoder.decode resp.body
        (heap0 (Connection.mk "n2" "h200" 2 3 none).Output) = some v ∧
      (ExecuteHTTPRequest testTransport testDecoder "GET" "p" none []
          (linkChain [⟨"n1", "h500", 0, 1⟩] (.mk "n2" "h200" 2 3 none))
          heap0).statusCode = resp.statusCode ∧
      (ExecuteHTTPRequest testTransport testDecoder "GET" "p" none []
          (linkChain [⟨"n1", "h500", 0, 1⟩] (.mk "n2" "h200" 2 3 none))
          heap0).error = none ∧
      (ExecuteHTTPRequest testTransport testDecoder "GET" "p" none []
          (linkChain [⟨"n1", "h500", 0, 1⟩] (.mk "n2" "h200" 2 3 none))
          heap0).heap = updateHeap heap0
            (Connection.mk "n2" "h200" 2 3 none).Output v) :=
  ⟨⟨by decide, by decide, by decide⟩,
    c1_first_success testTransport testDecoder "GET" "p" none []
      [⟨"n1", "h500", 0, 1⟩] (.mk "n2" "h200" 2 3 none) heap0
      (by decide) (by decide) (by decide)⟩

/-- C2: whenever a node with a fallback fails (construction, transport,
or non-2xx status), `ExecuteHTTPRequest` returns exactly the
`(statusCode, error)` pair produced by the fallback's execution —
nothing modified, cleared, or wrapped. -/
theorem c2_fallback_pair_verbatim {V : Type} (T : Transport) (D : Decoder V)
    (method path : String) (body : Option (List Nat))
    (headers : List (String × String)) (c f : Connection) (heap : Nat → V)
    (hfb : c.Fallback = some f)
    (hfail : attemptFails T method path body headers c.Host = true) :
    (ExecuteHTTPRequest T D method path body headers c heap).statusCode
      = (ExecuteHTTPRequest T D method path body headers f heap).statusCode ∧
    (ExecuteHTTPRequest T D method path body headers c heap).error
      = (ExecuteHTTPRequest T D method path body headers f heap).error := by
  cases c with
  | mk nm host out ce fb =>
    simp only [Connection.Fallback] at hfb
    simp only [Connection.Host] at hfail
    subst hfb
    have h := execute_delegates T D method path body headers nm host out ce
      f heap hfail
    exact ⟨h.1, h.2.1⟩

theorem c2_fallback_pair_verbatim_witness :
    ((Connection.mk "n1" "h500" 0 1
        (some (.mk "n2" "hdead" 2 3 none))).Fallback
      = some (.mk "n2" "hdead" 2 3 none) ∧
     attemptFails testTransport "GET" "p" none []
       (Connection.mk "n1" "h500" 0 1
         (some (.mk "n2" "hdead" 2 3 none))).Host = true) ∧
    ((ExecuteHTTPRequest testTransport testDecoder "GET" "p" none []
        (.mk "n1" "h500" 0 1 (some (.mk "n2" "hdead" 2 3 none)))
        heap0).statusCode
      = (ExecuteHTTPRequest testTransport testDecoder "GET" "p" none []
          (.mk "n2" "hdead" 2 3 none) heap0).statusCode ∧
     (ExecuteHTTPRequest testTransport testDecoder "GET" "p" none []
        (.mk "n1" "h500" 0 1 (some (.mk "n2" "hdead" 2 3 none)))
        heap0).error
      = (ExecuteHTTPRequest testTransport testDecoder "GET" "p" none []
          (.mk "n2" "hdead" 2 3 none) heap0).error) :=
  ⟨⟨rfl, by decide⟩,
    c2_fallback_pair_verbatim testTransport testDecoder "GET" "p" none []
      (.mk "n1" "h500" 0 1 (some (.mk "n2" "hdead" 2 3 none)))
      (.mk "n2" "hdead" 2 3 none) heap0 rfl (by decide)⟩

/-- C3: a node that receives a 2xx status whose payload fails to decode
makes the top-level execution return that same 2xx status paired with
the decode error, whether the node is the head (`pre = []`) or reached
through any prefix of failing nodes; the decode error is never dropped. -/
theorem c3_decode_error_surfaces {V : Type} (T : Transport) (D : Decoder V)
    (method path : String) (body : Option (List Nat))
    (headers : List (String × String)) (pre : List NodeConf)
    (ck : Connection) (heap : Nat → V) (resp : HTTPResponse)
    (hpre : ∀ cf ∈ pre, attemptFails T method path body headers cf.Host = true)
    (hresp : attemptResponse T method path body headers ck.Host = some resp)
    (hlo : 200 ≤ resp.statusCode) (hhi : resp.statusCode ≤ 299)
    (hdec : D.decode resp.body (heap ck.Output) = none) :
    (ExecuteHTTPRequest T D method path body headers
        (linkChain pre ck) heap).statusCode = resp.statusCode ∧
    (ExecuteHTTPRequest T D method path body headers
        (linkChain pre ck) heap).error = some ⟨decodeErrMsg⟩ := by
  have hnode := execute_decodeFail_2xx T D method path body headers ck heap
    resp hresp hlo hhi hdec
  obtain ⟨ea, eb, _⟩ :=
    execute_linkChain_fails T D method path body headers pre ck heap hpre
  constructor
  · rw [ea, hnode]
  · rw [eb, hnode]

theorem c3_decode_error_surfaces_witness :
    ((∀ cf ∈ ([⟨"n1", "h500", 0, 1⟩] : List NodeConf),
        attemptFails testTransport "GET" "p" none [] cf.Host = true) ∧
      attemptResponse testTransport "GET" "p" none []
        (Connection.mk "n2" "h200bad" 2 3 none).Host = some ⟨200, "BAD"⟩ ∧
      (200 : Int) ≤ 200 ∧ (200 : Int) ≤ 299 ∧
      testDecoder.decode "BAD"
        (heap0 (Connection.mk "n2" "h200bad" 2 3 none).Output) = none) ∧
    ((ExecuteHTTPRequest testTransport testDecoder "GET" "p" none []
        (linkChain [⟨"n1", "h500", 0, 1⟩] (.mk "n2" "h200bad" 2 3 none))
        heap0).statusCode = 200 ∧
     (ExecuteHTTPRequest testTransport testDecoder "GET" "p" none []
        (linkChain [⟨"n1", "h500", 0, 1⟩] (.mk "n2" "h200bad" 2 3 none))
        heap0).error = some ⟨decodeErrMsg⟩) :=
  ⟨⟨by decide, rfl, by decide, by decide, rfl⟩,
    c3_decode_error_surfaces testTransport testDecoder "GET" "p" none []
      [⟨"n1", "h500", 0, 1⟩] (.mk "n2" "h200bad" 2 3 none) heap0 ⟨200, "BAD"⟩
      (by decide) rfl (by decide) (by decide) rfl⟩

/-- C4 counterexample: the claim demands that every terminal node with a
status outside `[200,299]` decode the payload into `CustomError` and
return `(status, DecodeError)` when decoding fails; but a terminal node
answered 404 with an undecodable payload returns `(404, nil)` and never
decodes — the error target stays untouched. -/
theorem c4_terminal_404_counterexample :
    testDecoder.decode "BAD" (heap0 1) = none ∧
    (ExecuteHTTPRequest testTransport testDecoder "GET" "p" none []
        (.mk "t4" "h404bad" 0 1 none) heap0).statusCode = 404 ∧
    (ExecuteHTTPRequest testTransport testDecoder "GET" "p" none []
        (.mk "t4" "h404bad" 0 1 none) heap0).error = none ∧
    (ExecuteHTTPRequest testTransport testDecoder "GET" "p" none []
        (.mk "t4" "h404bad" 0 1 none) heap0).heap 1 = heap0 1 := by
  exact ⟨rfl, rfl, rfl, rfl⟩

/-- C4 (amended): a terminal node that receives a status outside
`[200,299]` other than 404 decodes the payload into its `CustomError`
target and returns `(status, nil)` when decoding succeeds or
`(status, DecodeError)` when decoding fails; a terminal 404 returns
`(404, nil)` without attempting to decode, leaving the error target
untouched. -/
theorem c4_terminal_non2xx_amended {V : Type} (T : Transport) (D : Decoder V)
    (method path : String) (body : Option (List Nat))
    (headers : List (String × String)) (nm host : String) (out ce : Nat)
    (heap : Nat → V) (resp : HTTPResponse)
    (hresp : attemptResponse T method path body headers host = some resp)
    (hbad : resp.statusCode < 200 ∨ 299 < resp.statusCode) :
    (resp.statusCode = 404 →
      ExecuteHTTPRequest T D method path body headers
          (.mk nm host out ce none) heap
        = ⟨404, none, heap, [nm], [nm]⟩) ∧
    (¬ resp.statusCode = 404 →
      ExecuteHTTPRequest T D method path body headers
          (.mk nm host out ce none) heap
        = match D.decode resp.body (heap ce) with
          | none => ⟨resp.statusCode, some ⟨decodeErrMsg⟩, heap, [nm], [nm]⟩
          | some v =>
            ⟨resp.statusCode, none, updateHeap heap ce v, [nm], [nm]⟩) := by
  constructor
  · intro h404
    exact execute_terminal_404 T D method path body headers nm host out ce
      heap resp hresp h404
  · intro h404
    exact execute_terminal_non2xx T D method path body headers nm host out ce
      heap resp hresp hbad h404

theorem c4_terminal_non2xx_amended_witness :
    (attemptResponse testTransport "GET" "p" none [] "h500good"
        = some ⟨500, "GOOD"⟩ ∧
      ((500 : Int) < 200 ∨ (299 : Int) < 500) ∧
      ¬ (500 : Int) = 404) ∧
    ExecuteHTTPRequest testTransport testDecoder "GET" "p" none []
        (.mk "t" "h500good" 0 1 none) heap0
      = match testDecoder.decode "GOOD" (heap0 1) with
        | none => ⟨500, some ⟨decodeErrMsg⟩, heap0, ["t"], ["t"]⟩
        | some v => ⟨500, none, updateHeap heap0 1 v, ["t"], ["t"]⟩ :=
  ⟨⟨rfl, by decide, by decide⟩,
    (c4_terminal_non2xx_amended testTransport testDecoder "GET" "p" none []
      "t" "h500good" 0 1 heap0 ⟨500, "GOOD"⟩ rfl (by decide)).2 (by decide)⟩

/-- C5: a decode failure never triggers delegation to the fallback.
Once the status is classified — 2xx decoded into `Output`, or terminal
non-2xx (other than 404) decoded into `CustomError` — a decode failure
is returned to the immediate caller together with the observed status,
and the ghost `visited` trace shows that only the node itself ran: the
fallback, even when present, is not executed. -/
theorem c5_decode_failure_no_delegation {V : Type} (T : Transport)
    (D : Decoder V) (method path : String) (body : Option (List Nat))
    (headers : List (String × String)) (c : Connection) (heap : Nat → V)
    (resp : HTTPResponse)
    (hresp : attemptResponse T method path body headers c.Host = some resp) :
    (200 ≤ resp.statusCode ∧ resp.statusCode ≤ 299 ∧
        D.decode resp.body (heap c.Output) = none →
      ExecuteHTTPRequest T D method path body headers c heap
        = ⟨resp.statusCode, some ⟨decodeErrMsg⟩, heap, [c.Name], [c.Name]⟩) ∧
    (c.Fallback = none ∧
        (resp.statusCode < 200 ∨ 299 < resp.statusCode) ∧
        ¬ resp.statusCode = 404 ∧
        D.decode resp.body (heap c.CustomError) = none →
      ExecuteHTTPRequest T D method path body headers c heap
        = ⟨resp.statusCode, some ⟨decodeErrMsg⟩, heap, [c.Name], [c.Name]⟩) := by
  constructor
  · rintro ⟨hlo, hhi, hdec⟩
    exact execute_decodeFail_2xx T D method path body headers c heap resp
      hresp hlo hhi hdec
  · rintro ⟨hterm, hbad, h404, hdec⟩
    cases c with
    | mk nm host out ce fb =>
      simp only [Connection.Fallback] at hterm
      subst hterm
      simp only [Connection.Host] at hresp
      simp only [Connection.CustomError] at hdec
      have h := execute_terminal_non2xx T D method path body headers nm host
        out ce heap resp hresp hbad h404
      rw [hdec] at h
      simpa only [Connection.Name] using h

theorem c5_decode_failure_no_delegation_witness :
    (attemptResponse testTransport "GET" "p" none []
        (Connection.mk "n5" "h200bad" 0 1
          (some (.mk "fb" "h200" 2 3 none))).Host = some ⟨200, "BAD"⟩ ∧
      (200 : Int) ≤ 200 ∧ (200 : Int) ≤ 299 ∧
      testDecoder.decode "BAD" (heap0 0) = none) ∧
    ExecuteHTTPRequest testTransport testDecoder "GET" "p" none []
        (.mk "n5" "h200bad" 0 1 (some (.mk "fb" "h200" 2 3 none))) heap0
      = ⟨200, some ⟨decodeErrMsg⟩, heap0, ["n5"], ["n5"]⟩ :=
  ⟨⟨rfl, by decide, by decide, rfl⟩,
    (c5_decode_failure_no_delegation testTransport testDecoder "GET" "p"
      none [] (.mk "n5" "h200bad" 0 1 (some (.mk "fb" "h200" 2 3 none)))
      heap0 ⟨200, "BAD"⟩ rfl).1 ⟨by decide, by decide, rfl⟩⟩

/-- C8: a terminal node whose request construction fails returns status
400 paired with the construction error and never calls the transport
(the ghost `transported` trace is empty); a terminal node whose
transport call fails returns status 503 paired with the transport
error. -/
theorem c8_terminal_construct_transport {V : Type} (T : Transport)
    (D : Decoder V) (method path : String) (body : Option (List Nat))
    (headers : List (String × String)) (nm host : String) (out ce : Nat)
    (heap : Nat → V) :
    (∀ e, T.newRequest method (host ++ "/" ++ path) body = .error e →
      ExecuteHTTPRequest T D method path body headers
          (.mk nm host out ce none) heap
        = ⟨400, some e, heap, [nm], []⟩) ∧
    (∀ request e, T.newRequest method (host ++ "/" ++ path) body = .ok request →
      T.doRequest (addHeaderList request headers) = .error e →
      ExecuteHTTPRequest T D method path body headers
          (.mk nm host out ce none) heap
        = ⟨503, some e, heap, [nm], [nm]⟩) := by
  constructor
  · intro e herr
    exact execute_terminal_construct T D method path body headers nm host
      out ce heap e herr
  · intro request e hok herr
    exact execute_terminal_transport T D method path body headers nm host
      out ce heap request e hok herr

theorem c8_terminal_construct_transport_witness :
    (testTransport.newRequest "GET" ("badscheme" ++ "/" ++ "p") none
        = .error ⟨"invalid URL"⟩) ∧
    ExecuteHTTPRequest testTransport testDecoder "GET" "p" none []
        (.mk "n8" "badscheme" 0 1 none) heap0
      = ⟨400, some ⟨"invalid URL"⟩, heap0, ["n8"], []⟩ :=
  ⟨rfl,
    (c8_terminal_construct_transport testTransport testDecoder "GET" "p"
      none [] "n8" "badscheme" 0 1 heap0).1 ⟨"invalid URL"⟩ rfl⟩

/-- C9: a `Connection` node's own fields never change across a call —
the Go method takes its receiver by value and never assigns to it, and
in this embedding nodes are immutable values — and the heap can change
only at the addresses the chain's `Output` and `CustomError` references
point to: every other address holds its old contents after the call. -/
theorem c9_fields_immutable_heap_frame {V : Type} (T : Transport)
    (D : Decoder V) (method path : String) (body : Option (List Nat))
    (headers : List (String × String)) (c : Connection) (heap : Nat → V)
    (a : Nat) (ha : a ∉ chainTargets c) :
    (ExecuteHTTPRequest T D method path body headers c heap).heap a
      = heap a :=
  execute_frame T D method path body headers c heap a ha

theorem c9_fields_immutable_heap_frame_witness :
    (99 ∉ chainTargets
        (.mk "n1" "h500" 0 1 (some (.mk "n2" "h200" 2 3 none)))) ∧
    (ExecuteHTTPRequest testTransport testDecoder "GET" "p" none []
        (.mk "n1" "h500" 0 1 (some (.mk "n2" "h200" 2 3 none)))
        heap0).heap 99 = heap0 99 :=
  ⟨by decide,
    c9_fields_immutable_heap_frame testTransport testDecoder "GET" "p"
      none [] (.mk "n1" "h500" 0 1 (some (.mk "n2" "h200" 2 3 none)))
      heap0 99 (by decide)⟩

/-- C10: the error returned on a decode failure carries the identical
message — `Unable to parse custom error.` — whether the failed decode
was of a 2xx payload into `Output` or of a terminal non-2xx payload into
`CustomError`; the two failure kinds are distinguishable only by the
accompanying status code. -/
theorem c10_decode_errors_identical {V : Type} (T : Transport)
    (D : Decoder V) (method path : String) (body : Option (List Nat))
    (headers : List (String × String)) (cA cB : Connection)
    (heapA heapB : Nat → V) (respA respB : HTTPResponse)
    (hA : attemptResponse T method path body headers cA.Host = some respA)
    (hAlo : 200 ≤ respA.statusCode) (hAhi : respA.statusCode ≤ 299)
    (hAdec : D.decode respA.body (heapA cA.Output) = none)
    (hBterm : cB.Fallback = none)
    (hB : attemptResponse T method path body headers cB.Host = some respB)
    (hBbad : respB.statusCode < 200 ∨ 299 < respB.statusCode)
    (hB404 : ¬ respB.statusCode = 404)
    (hBdec : D.decode respB.body (heapB cB.CustomError) = none) :
    (ExecuteHTTPRequest T D method path body headers cA heapA).error
      = (ExecuteHTTPRequest T D method path body headers cB heapB).error ∧
    (ExecuteHTTPRequest T D method path body headers cA heapA).error
      = some ⟨"Unable to parse custom error."⟩ := by
  have hAres := execute_decodeFail_2xx T D method path body headers cA heapA
    respA hA hAlo hAhi hAdec
  have hBres : ExecuteHTTPRequest T D method path body headers cB heapB
      = ⟨respB.statusCode, some ⟨decodeErrMsg⟩, heapB,
          [cB.Name], [cB.Name]⟩ := by
    cases cB with
    | mk nm host out ce fb =>
      simp only [Connection.Fallback] at hBterm
      subst hBterm
      simp only [Connection.Host] at hB
      simp only [Connection.CustomError] at hBdec
      have h := execute_terminal_non2xx T D method path body headers nm host
        out ce heapB respB hB hBbad hB404
      rw [hBdec] at h
      simpa only [Connection.Name] using h
  rw [hAres, hBres]
  exact ⟨rfl, rfl⟩

theorem c10_decode_errors_identical_witness :
    ((attemptResponse testTransport "GET" "p" none []
        (Connection.mk "nA" "h200bad" 0 1 none).Host = some ⟨200, "BAD"⟩) ∧
      (Connection.mk "nB" "h500" 2 3 none).Fallback = none ∧
      (attemptResponse testTransport "GET" "p" none []
        (Connection.mk "nB" "h500" 2 3 none).Host = some ⟨500, "BAD"⟩)) ∧
    ((ExecuteHTTPRequest testTransport testDecoder "GET" "p" none []
        (.mk "nA" "h200bad" 0 1 none) heap0).error
      = (ExecuteHTTPRequest testTransport testDecoder "GET" "p" none []
          (.mk "nB" "h500" 2 3 none) heap0).error ∧
     (ExecuteHTTPRequest testTransport testDecoder "GET" "p" none []
        (.mk "nA" "h200bad" 0 1 none) heap0).error
      = some ⟨"Unable to parse custom error."⟩) :=
  ⟨⟨rfl, rfl, rfl⟩,
    c10_decode_errors_identical testTransport testDecoder "GET" "p" none []
      (.mk "nA" "h200bad" 0 1 none) (.mk "nB" "h500" 2 3 none) heap0 heap0
      ⟨200, "BAD"⟩ ⟨500, "BAD"⟩ rfl (by decide) (by decide) rfl rfl rfl
      (by decide) (by decide) rfl⟩

/-!
The Builder/Director (`src/connectionbuilder.go`, and the doc-commented
revision in `src/unnamed/part_000`, which differs only in
`addHTTPHeaders`).  The `Connection` these revisions populate carries
`Method`/`Path`/`Body`/`Headers` on the node itself; it is embedded here
as `BuiltConnection` with Go zero values rendered as `none`.  The body
value is opaque (`β`) and `json.Marshal` is an explicit codec parameter.
The Go builder mutates `builder.Connection` in place; here each method
returns the updated builder.
-/

/-- The node type the builder populates: `Connection` of the builder
revisions (`Name`, `Method`, `Path`, `Body`, `Headers`, `Output`,
`CustomError`, `Fallback`).  `Output`/`CustomError` are opaque target
references and `Fallback` an opaque `Connecter` reference. -/
structure BuiltConnection where
  Name : String
  Method : String
  Path : String
  Body : Option (List Nat)
  Headers : Option (List (String × String))
  Output : Option Nat
  CustomError : Option Nat
  Fallback : Option Nat
  deriving Repr, DecidableEq

/-- A Go `map[string]string`, `none` when nil; entries keyed uniquely. -/
def lookupHeader (m : Option (List (String × String))) (k : String) :
    Option String :=
  match m with
  | none => none
  | some l => (l.find? (fun p => p.1 == k)).map (fun p => p.2)

/-- Go map assignment `m[k] = v`: replace the entry when the key exists,
append it otherwise. -/
def mapInsert (m : List (String × String)) (k v : String) :
    List (String × String) :=
  if m.any (fun p => p.1 == k) then
    m.map (fun p => if p.1 == k then (k, v) else p)
  else m ++ [(k, v)]

/-- `for header, value := range l { m[header] = value }`. -/
def mapInsertAll (m : List (String × String))
    (l : List (String × String)) : List (String × String) :=
  l.foldl (fun acc p => mapInsert acc p.1 p.2) m

/-- The default header map injected for JSON-producing nodes. -/
def defaultJSONHeaders : List (String × String) :=
  [("Content-Type", "application/json")]

/-- `ConnectionBuilder` from `src/connectionbuilder.go`: the scattered
configuration plus the node under construction (`none` until
`createConnection` runs). -/
structure ConnectionBuilder (β : Type) where
  name : String
  method : String
  path : String
  returnsJSON : Bool
  body : Option β
  output : Option Nat
  customError : Option Nat
  headers : Option (List (String × String))
  fallback : Option Nat
  Connection : Option BuiltConnection

/-- `NewConnectionBuilder` (argument order as in the source). -/
def NewConnectionBuilder {β : Type} (name method path : String)
    (returnsJSON : Bool) (body : Option β)
    (headers : Option (List (String × String)))
    (output customError : Option Nat) (fallback : Option Nat) :
    ConnectionBuilder β :=
  { name := name, method := method, path := path,
    returnsJSON := returnsJSON, body := body, output := output,
    customError := customError, headers := headers, fallback := fallback,
    Connection := none }

/-- `createConnection`: instantiate the node with name/method/path, then
inject the default JSON header map when `returnsJSON` is set. -/
def ConnectionBuilder.createConnection {β : Type}
    (builder : ConnectionBuilder β) : ConnectionBuilder β :=
  let conn : BuiltConnection :=
    { Name := builder.name, Method := builder.method, Path := builder.path,
      Body := none, Headers := none, Output := none, CustomError := none,
      Fallback := none }
  let conn := if builder.returnsJSON
    then { conn with Headers := some defaultJSONHeaders } else conn
  { builder with Connection := some conn }

/-- `addHTTPPOSTBody`: marshal the stored body via the codec; on failure
report the error and leave the node unchanged, on success store the
marshaled bytes on the node.  (The director only calls this when
`builder.body` is non-nil; the `none` branch is never reached there.) -/
def ConnectionBuilder.addHTTPPOSTBody {β : Type}
    (enc : β → Except GoError (List Nat)) (builder : ConnectionBuilder β) :
    ConnectionBuilder β × Option GoError :=
  match builder.body with
  | none => (builder, none)
  | some b =>
    match enc b with
    | .error err => (builder, some err)
    | .ok marshaled =>
      ({ builder with Connection := builder.Connection.map (fun c =>
          { c with Body := some marshaled }) }, none)

/-- `addHTTPHeaders` as in `src/connectionbuilder.go`: unconditionally
assign the supplied headers to the node. -/
def ConnectionBuilder.addHTTPHeaders {β : Type}
    (builder : ConnectionBuilder β) : ConnectionBuilder β :=
  { builder with Connection := builder.Connection.map (fun c =>
      { c with Headers := builder.headers }) }

/-- `addPayloads`: attach the output and error targets. -/
def ConnectionBuilder.addPayloads {β : Type}
    (builder : ConnectionBuilder β) : ConnectionBuilder β :=
  { builder with Connection := builder.Connection.map (fun c =>
      { c with Output := builder.output,
               CustomError := builder.customError }) }

/-- `addFallback`: attach the fallback reference. -/
def ConnectionBuilder.addFallback {β : Type}
    (builder : ConnectionBuilder β) : ConnectionBuilder β :=
  { builder with Connection := builder.Connection.map (fun c =>
      { c with Fallback := builder.fallback }) }

/-- `ConnectionManager.CreateConnection` (the Director): create the
node; marshal and attach the body when present — the error returned by
`addHTTPPOSTBody` is discarded, exactly as in the Go source, whose call
statement ignores the return value; attach headers, payload targets,
and the fallback when present.  The Go method returns nothing: there is
no error channel to the caller. -/
def ConnectionManager.CreateConnection {β : Type}
    (enc : β → Except GoError (List Nat)) (builder : ConnectionBuilder β) :
    ConnectionBuilder β :=
  let builder := builder.createConnection
  let builder := if builder.body.isSome
    then (builder.addHTTPPOSTBody enc).1 else builder
  let builder := builder.addHTTPHeaders
  let builder := builder.addPayloads
  if builder.fallback.isSome then builder.addFallback else builder

namespace part000

/-- `addHTTPHeaders` as in the doc-commented revision
(`src/unnamed/part_000`): when the node already holds headers (the JSON
default), merge the supplied map into them key by key; otherwise assign
the supplied headers. -/
def ConnectionBuilder.addHTTPHeaders {β : Type}
    (builder : Fallback.ConnectionBuilder β) : Fallback.ConnectionBuilder β :=
  { builder with Connection := builder.Connection.map (fun c =>
        match c.Headers with
        | some existing =>
          { c with
            Headers := some (mapInsertAll existing (builder.headers.getD [])) }
        | none => { c with Headers := builder.headers }) }

/-- The Director of the doc-commented revision: identical to
`ConnectionManager.CreateConnection` except for the merging
`addHTTPHeaders`. -/
def ConnectionManager.CreateConnection {β : Type}
    (enc : β → Except GoError (List Nat))
    (builder : Fallback.ConnectionBuilder β) : Fallback.ConnectionBuilder β :=
  let builder := builder.createConnection
  let builder := if builder.body.isSome
    then (builder.addHTTPPOSTBody enc).1 else builder
  let builder := ConnectionBuilder.addHTTPHeaders builder
  let builder := builder.addPayloads
  if builder.fallback.isSome then builder.addFallback else builder

end part000

/-- A codec that always succeeds (marshals to no bytes) and one that
always fails, used by the builder witnesses. -/
def encOK : Unit → Except GoError (List Nat) := fun _ => .ok []

def encFail : Unit → Except GoError (List Nat) :=
  fun _ => .error ⟨"json: unsupported type"⟩

/-- C6 counterexample.  The claim says: JSON-marked node with no
explicit headers ends with exactly the default `Content-Type` map, and
explicit headers replace the default entirely.  Both halves fail on the
source: in the `src/connectionbuilder.go` revision a JSON-marked builder
with nil headers produces a node with nil headers (the injected default
is unconditionally overwritten by `addHTTPHeaders`); in the
doc-commented revision (`src/unnamed/part_000`) supplied headers are
merged into the default — the finished map still contains the default
`Content-Type` entry absent from the supplied map. -/
theorem c6_headers_counterexample :
    ((ConnectionManager.CreateConnection encOK
        (NewConnectionBuilder "b" "GET" "p" true (none : Option Unit) none
          (some 0) (some 1) none)).Connection.map (fun c => c.Headers)
      = some none) ∧
    some (none : Option (List (String × String)))
      ≠ some (some defaultJSONHeaders) ∧
    ((part000.ConnectionManager.CreateConnection encOK
        (NewConnectionBuilder "b" "GET" "p" true (none : Option Unit)
          (some [("Accept", "text/xml")]) (some 0) (some 1)
          none)).Connection.map (fun c => c.Headers)
      = some (some [("Content-Type", "application/json"),
          ("Accept", "text/xml")])) ∧
    lookupHeader (some [("Accept", "text/xml")]) "Content-Type" = none :=
  ⟨by decide, by decide, by decide, by decide⟩

/-- C6 (amended): in the `src/connectionbuilder.go` revision the
finished node's headers are always exactly the supplied headers — nil
when none are supplied — because `addHTTPHeaders` unconditionally
overwrites the JSON default injected by `createConnection`; in the
doc-commented revision (`src/unnamed/part_000`), a JSON-marked node
keeps the default map with the supplied headers merged into it key by
key (so no supplied headers leaves exactly the default), while a node
not marked JSON gets exactly the supplied headers. -/
theorem c6_headers_amended {β : Type} (enc : β → Except GoError (List Nat))
    (b : ConnectionBuilder β) :
    ((ConnectionManager.CreateConnection enc b).Connection.map
        (fun c => c.Headers) = some b.headers) ∧
    (b.returnsJSON = true →
      (part000.ConnectionManager.CreateConnection enc b).Connection.map
          (fun c => c.Headers)
        = some (some (mapInsertAll defaultJSONHeaders (b.headers.getD [])))) ∧
    (b.returnsJSON = false →
      (part000.ConnectionManager.CreateConnection enc b).Connection.map
        (fun c => c.Headers) = some b.headers) := by
  obtain ⟨nm, mth, pth, rj, bd, outp, cerr, hdrs, fb, conn⟩ := b
  refine ⟨?_, fun hrj => ?_, fun hrj => ?_⟩
  · simp only [ConnectionManager.CreateConnection,
      ConnectionBuilder.createConnection, ConnectionBuilder.addHTTPPOSTBody,
      ConnectionBuilder.addHTTPHeaders, ConnectionBuilder.addPayloads,
      ConnectionBuilder.addFallback]
    repeat' split
    all_goals simp_all
  · replace hrj : rj = true := hrj
    subst hrj
    simp only [part000.ConnectionManager.CreateConnection,
      ConnectionBuilder.createConnection, ConnectionBuilder.addHTTPPOSTBody,
      part000.ConnectionBuilder.addHTTPHeaders,
      ConnectionBuilder.addPayloads, ConnectionBuilder.addFallback]
    repeat' split
    all_goals simp_all
  · replace hrj : rj = false := hrj
    subst hrj
    simp only [part000.ConnectionManager.CreateConnection,
      ConnectionBuilder.createConnection, ConnectionBuilder.addHTTPPOSTBody,
      part000.ConnectionBuilder.addHTTPHeaders,
      ConnectionBuilder.addPayloads, ConnectionBuilder.addFallback]
    repeat' split
    all_goals simp_all

theorem c6_headers_amended_witness :
    ((ConnectionManager.CreateConnection encOK
        (NewConnectionBuilder "w" "GET" "p" true (none : Option Unit)
          (some [("Accept", "text/xml")]) (some 0) (some 1)
          none)).Connection.map (fun c => c.Headers)
      = some (NewConnectionBuilder "w" "GET" "p" true (none : Option Unit)
          (some [("Accept", "text/xml")]) (some 0) (some 1) none).headers) ∧
    ((part000.ConnectionManager.CreateConnection encOK
        (NewConnectionBuilder "w" "GET" "p" true (none : Option Unit)
          (some [("Accept", "text/xml")]) (some 0) (some 1)
          none)).Connection.map (fun c => c.Headers)
      = some (some (mapInsertAll defaultJSONHeaders
          ((NewConnectionBuilder "w" "GET" "p" true (none : Option Unit)
            (some [("Accept", "text/xml")]) (some 0) (some 1)
            none).headers.getD [])))) :=
  ⟨(c6_headers_amended encOK
      (NewConnectionBuilder "w" "GET" "p" true (none : Option Unit)
        (some [("Accept", "text/xml")]) (some 0) (some 1) none)).1,
    (c6_headers_amended encOK
      (NewConnectionBuilder "w" "GET" "p" true (none : Option Unit)
        (some [("Accept", "text/xml")]) (some 0) (some 1) none)).2.1 rfl⟩

/-- C7 counterexample.  The claim says a builder input with a body whose
serialization fails makes `CreateConnection` surface a
`BodyEncodingError` and abort, leaving no node produced or wired.  On
the source, `addHTTPPOSTBody` does report the error, but the director
ignores its return value: the node is produced anyway (with no body) and
the supplied fallback is wired into it, and `CreateConnection` returns
no error to the caller. -/
theorem c7_encoding_failure_counterexample :
    (((NewConnectionBuilder "c7" "POST" "p" true (some ()) none (some 0)
          (some 1) (some 7)).createConnection.addHTTPPOSTBody encFail).2
      = some ⟨"json: unsupported type"⟩) ∧
    (ConnectionManager.CreateConnection encFail
        (NewConnectionBuilder "c7" "POST" "p" true (some ()) none (some 0)
          (some 1) (some 7))).Connection
      = some ⟨"c7", "POST", "p", none, none, some 0, some 1, some 7⟩ :=
  ⟨by decide, by decide⟩

/-- C7 (amended): when the supplied body's serialization fails,
`addHTTPPOSTBody` reports the error but the director discards it (the Go
`CreateConnection` has no error channel at all): the node is still
produced, its `Body` stays absent, and the supplied fallback reference
is still wired into it. -/
theorem c7_encoding_failure_ignored {β : Type}
    (enc : β → Except GoError (List Nat)) (b : ConnectionBuilder β)
    (v : β) (e : GoError) (hbody : b.body = some v)
    (henc : enc v = .error e) :
    ((b.createConnection.addHTTPPOSTBody enc).2 = some e) ∧
    (ConnectionManager.CreateConnection enc b).Connection.isSome = true ∧
    (ConnectionManager.CreateConnection enc b).Connection.map
      (fun c => c.Body) = some none ∧
    (ConnectionManager.CreateConnection enc b).Connection.map
      (fun c => c.Fallback) = some b.fallback := by
  obtain ⟨nm, mth, pth, rj, bd, outp, cerr, hdrs, fb, conn⟩ := b
  replace hbody : bd = some v := hbody
  subst hbody
  refine ⟨?_, ?_, ?_, ?_⟩ <;>
    simp only [ConnectionManager.CreateConnection,
      ConnectionBuilder.createConnection, ConnectionBuilder.addHTTPPOSTBody,
      ConnectionBuilder.addHTTPHeaders, ConnectionBuilder.addPayloads,
      ConnectionBuilder.addFallback, henc] <;>
    repeat' split <;>
    simp_all

theorem c7_encoding_failure_ignored_witness :
    ((NewConnectionBuilder "w7" "POST" "p" false (some ()) none (some 0)
        (some 1) (some 9)).body = some () ∧
      encFail () = .error ⟨"json: unsupported type"⟩) ∧
    (((NewConnectionBuilder "w7" "POST" "p" false (some ()) none (some 0)
          (some 1) (some 9)).createConnection.addHTTPPOSTBody encFail).2
        = some ⟨"json: unsupported type"⟩ ∧
      (ConnectionManager.CreateConnection encFail
          (NewConnectionBuilder "w7" "POST" "p" false (some ()) none (some 0)
            (some 1) (some 9))).Connection.isSome = true ∧
      (ConnectionManager.CreateConnection encFail
          (NewConnectionBuilder "w7" "POST" "p" false (some ()) none (some 0)
            (some 1) (some 9))).Connection.map (fun c => c.Body)
        = some none ∧
      (ConnectionManager.CreateConnection encFail
          (NewConnectionBuilder "w7" "POST" "p" false (some ()) none (some 0)
            (some 1) (some 9))).Connection.map (fun c => c.Fallback)
        = some (NewConnectionBuilder "w7" "POST" "p" false
            (some (() : Unit)) none (some 0) (some 1) (some 9)).fallback) :=
  ⟨⟨rfl, rfl⟩,
    c7_encoding_failure_ignored encFail
      (NewConnectionBuilder "w7" "POST" "p" false (some ()) none (some 0)
        (some 1) (some 9)) () ⟨"json: unsupported type"⟩ rfl rfl⟩

end Fallback
